import Mathlib

/-!
# Verification of the investor-dashboard backend core

Shallow embedding of the CSV ingestion pipeline and the aggregation /
reporting engine of the investor-dashboard backend
(`src/apis/investors/investor_services.py`, `investor_routers.py`,
`investor_models.py`, `investor_enums.py`), together with proofs of the
behavioural claims about them.

Modelling conventions:
* Python `Decimal` values are rationals (`ℚ`); `float` values are rationals
  produced by `roundFloat`, the round-to-nearest-even projection onto
  53-bit-significand binary floating point (exponent range is unbounded in
  the model; no input in this development approaches overflow or subnormal
  range).
* MongoDB documents are Lean structures; the aggregation pipelines are
  Lean functions over lists of documents.  Mongo `$multiply`/`$sum` over
  `double` values round each intermediate result with `roundFloat`.
* `HTTPException(status, detail)` is an explicit error value; fallible
  operations return `Except HTTPException α`.
-/

namespace InvestorDashboard

/- Core `Rat.add`/`Rat.mul`/`Rat.sub` are shipped `@[irreducible]`; the
claims below are settled on concrete inputs by evaluation, so restore
their reducibility for this file. -/
attribute [local semireducible] Rat.add Rat.mul Rat.sub

set_option maxRecDepth 100000

/-! ## Python string helpers -/

/-- Characters removed by Python `str.strip()` (ASCII whitespace; the
Unicode space characters Python also strips never occur in this data). -/
def isPySpace (c : Char) : Bool :=
  c == ' ' || c == '\t' || c == '\n' || c == '\r' || c == '\x0b' || c == '\x0c'

/-- Python `str.strip()`. -/
def pyStrip (s : String) : String :=
  ⟨((s.data.dropWhile isPySpace).reverse.dropWhile isPySpace).reverse⟩

/-- Split a character list at every occurrence of `sep` (like Python
`str.split(sep)` with a one-character separator). -/
def splitCharAux (sep : Char) : List Char → List Char → List (List Char)
  | [], acc => [acc.reverse]
  | c :: cs, acc =>
      if c = sep then acc.reverse :: splitCharAux sep cs []
      else splitCharAux sep cs (c :: acc)

def splitChar (sep : Char) (s : String) : List String :=
  (splitCharAux sep s.data []).map (fun l => ⟨l⟩)

def isDigitChar (c : Char) : Bool := '0' ≤ c && c ≤ '9'

def digitVal (c : Char) : Nat := c.toNat - '0'.toNat

def digitsToNat (cs : List Char) : Nat :=
  cs.foldl (fun acc c => acc * 10 + digitVal c) 0

/-- Parse a non-empty all-digit character list. -/
def parseNatDigits (cs : List Char) : Option Nat :=
  if cs ≠ [] ∧ cs.all isDigitChar then some (digitsToNat cs) else none

/-! ## Dates

`datetime.strptime` results; only the calendar date matters to the claims,
so the time-of-day part of Python `datetime` is dropped. -/

structure PyDate where
  year : Nat
  month : Nat
  day : Nat
deriving DecidableEq

/-- Proleptic-Gregorian leap year, as used by `datetime`. -/
def isLeapYear (y : Nat) : Bool :=
  y % 4 == 0 && (y % 100 != 0 || y % 400 == 0)

def daysInMonth (y m : Nat) : Nat :=
  if m = 2 then (if isLeapYear y then 29 else 28)
  else if m = 4 ∨ m = 6 ∨ m = 9 ∨ m = 11 then 30
  else 31

/-- Build a calendar-valid date from year/month/day digit strings, with the
lexical constraints of `strptime`'s `%Y` (exactly four digits), `%m` and
`%d` (one or two digits, nonzero): `None` models a `ValueError`. -/
def mkValidDate (ys ms ds : String) : Option PyDate :=
  match parseNatDigits ys.data, parseNatDigits ms.data, parseNatDigits ds.data with
  | some y, some m, some d =>
      if ys.data.length = 4 ∧ 1 ≤ y ∧
         ms.data.length ≤ 2 ∧ 1 ≤ m ∧ m ≤ 12 ∧
         ds.data.length ≤ 2 ∧ 1 ≤ d ∧ d ≤ daysInMonth y m
      then some ⟨y, m, d⟩ else none
  | _, _, _ => none

/-- `datetime.strptime(s, "%Y-%m-%d")`, as an `Option`. -/
def parse_date_iso (s : String) : Option PyDate :=
  match splitChar '-' s with
  | [ys, ms, ds] => mkValidDate ys ms ds
  | _ => none

/-- `datetime.strptime(s, "%m/%d/%Y")`, as an `Option`. -/
def parse_date_us (s : String) : Option PyDate :=
  match splitChar '/' s with
  | [ms, ds, ys] => mkValidDate ys ms ds
  | _ => none

/-- The date-parsing block of `upload_csv_data` (investor_services.py
lines 96-108).  Both fields are parsed inside one `try`: first both in ISO
format, on any failure both in US slash format, on any failure both are
replaced by the current timestamp `now`.  The two fields are *not* parsed
independently of each other. -/
def parse_dates (s1 s2 : String) (now : PyDate) : PyDate × PyDate :=
  match parse_date_iso s1, parse_date_iso s2 with
  | some d1, some d2 => (d1, d2)
  | _, _ =>
      match parse_date_us s1, parse_date_us s2 with
      | some d1, some d2 => (d1, d2)
      | _, _ => (now, now)

/-- Modelled from the claim's words, for comparison with `parse_dates`
(not from the source): parse *one* date field independently — ISO first,
then US slash format, then substitute the processing timestamp for that
field alone. -/
def parse_date_field_independent (s : String) (now : PyDate) : PyDate :=
  match parse_date_iso s with
  | some d => d
  | none =>
      match parse_date_us s with
      | some d => d
      | none => now

/-! ## Exact decimal parsing (`Decimal(str(x))`) -/

/-- Parse an unsigned decimal numeral (digits with an optional single
point).  Exponent notation and the special values `Infinity`/`NaN`,
which `Decimal` also accepts, are not modelled; no input in this
repository's data uses them. -/
def parseUnsignedDecimal (cs : List Char) : Option ℚ :=
  match splitCharAux '.' cs [] with
  | [ip] =>
      if ip ≠ [] ∧ ip.all isDigitChar then some ((digitsToNat ip : ℚ)) else none
  | [ip, fp] =>
      if (ip ≠ [] ∨ fp ≠ []) ∧ ip.all isDigitChar ∧ fp.all isDigitChar then
        some ((digitsToNat ip : ℚ) + mkRat (digitsToNat fp) (10 ^ fp.length))
      else none
  | _ => none

/-- Python `Decimal(s)` on a plain numeral string (the constructor strips
surrounding whitespace itself). -/
def parseDecimal (s : String) : Option ℚ :=
  match (pyStrip s).data with
  | '-' :: cs => (parseUnsignedDecimal cs).map (fun q => -q)
  | '+' :: cs => parseUnsignedDecimal cs
  | cs => parseUnsignedDecimal cs

/-! ## IEEE-754 binary64 model

`upload_csv_data` stores each commitment amount as `float(amount)`
(investor_services.py line 158), and the Mongo aggregation pipelines
multiply and add those values as `double`s.  `roundFloat` is the
round-to-nearest-ties-to-even projection onto numbers with a 53-bit
significand (binary64 precision; the exponent is unbounded, which agrees
with binary64 on every value appearing in this development). -/

/-- Fuelled base-2 logarithm (structural recursion so that the kernel can
evaluate it on literals). -/
def natLog2Aux : Nat → Nat → Nat
  | 0, _ => 0
  | fuel + 1, n => if 2 ≤ n then natLog2Aux fuel (n / 2) + 1 else 0

def natLog2 (n : Nat) : Nat := natLog2Aux n n

/-- `2 ^ e` as a rational, for an integer exponent (kernel-evaluable,
unlike the generic `zpow`). -/
def pow2Q : ℤ → ℚ
  | Int.ofNat n => ((2 ^ n : ℕ) : ℚ)
  | Int.negSucc n => mkRat 1 (2 ^ (n + 1))

/-- Round a rational to the nearest integer, ties to even. -/
def roundHalfEven (q : ℚ) : ℤ :=
  let n : ℤ := Int.fdiv q.num (q.den : ℤ)
  let frac : ℚ := q - (n : ℚ)
  if frac < mkRat 1 2 then n
  else if mkRat 1 2 < frac then n + 1
  else if n % 2 = 0 then n else n + 1

/-- `⌊log₂ |q|⌋` for a nonzero rational. -/
def floorLog2Q (q : ℚ) : ℤ :=
  let a : ℚ := if q < 0 then -q else q
  let e0 : ℤ := (natLog2 q.num.natAbs : ℤ) - (natLog2 q.den : ℤ)
  if pow2Q (e0 + 1) ≤ a then e0 + 1
  else if pow2Q e0 ≤ a then e0
  else e0 - 1

/-- Round a real (rational) value to the nearest binary64 double,
ties to even. -/
def roundFloat (q : ℚ) : ℚ :=
  if q = 0 then 0
  else
    let s : ℤ := floorLog2Q q - 52
    ((roundHalfEven (q * pow2Q (-s)) : ℤ) : ℚ) * pow2Q s

/-! ## Enumerations (`investor_enums.py`)

Python's `SomeEnum(value)` constructor looks a string up among the member
values and raises `ValueError` when it is absent; `ofString` models it as
an `Option`. -/

inductive InvestorTypeEnum
  | ASSET_MANAGER | BANK | FUND_MANAGER | WEALTH_MANAGER
deriving DecidableEq

def InvestorTypeEnum.value : InvestorTypeEnum → String
  | .ASSET_MANAGER => "asset manager"
  | .BANK => "bank"
  | .FUND_MANAGER => "fund manager"
  | .WEALTH_MANAGER => "wealth manager"

def InvestorTypeEnum.ofString (s : String) : Option InvestorTypeEnum :=
  if s = "asset manager" then some .ASSET_MANAGER
  else if s = "bank" then some .BANK
  else if s = "fund manager" then some .FUND_MANAGER
  else if s = "wealth manager" then some .WEALTH_MANAGER
  else none

inductive AssetClassEnum
  | HEDGE_FUNDS | INFRASTRUCTURE | NATURAL_RESOURCES
  | PRIVATE_DEBT | PRIVATE_EQUITY | REAL_ESTATE
deriving DecidableEq

def AssetClassEnum.value : AssetClassEnum → String
  | .HEDGE_FUNDS => "Hedge Funds"
  | .INFRASTRUCTURE => "Infrastructure"
  | .NATURAL_RESOURCES => "Natural Resources"
  | .PRIVATE_DEBT => "Private Debt"
  | .PRIVATE_EQUITY => "Private Equity"
  | .REAL_ESTATE => "Real Estate"

def AssetClassEnum.ofString (s : String) : Option AssetClassEnum :=
  if s = "Hedge Funds" then some .HEDGE_FUNDS
  else if s = "Infrastructure" then some .INFRASTRUCTURE
  else if s = "Natural Resources" then some .NATURAL_RESOURCES
  else if s = "Private Debt" then some .PRIVATE_DEBT
  else if s = "Private Equity" then some .PRIVATE_EQUITY
  else if s = "Real Estate" then some .REAL_ESTATE
  else none

inductive CurrencyEnum
  | GBP | USD
deriving DecidableEq

inductive CountryEnum
  | CHINA | SINGAPORE | UNITED_KINGDOM | UNITED_STATES
deriving DecidableEq

def CountryEnum.value : CountryEnum → String
  | .CHINA => "China"
  | .SINGAPORE => "Singapore"
  | .UNITED_KINGDOM => "United Kingdom"
  | .UNITED_STATES => "United States"

def CurrencyEnum.value : CurrencyEnum → String
  | .GBP => "GBP"
  | .USD => "USD"

def CurrencyEnum.ofString (s : String) : Option CurrencyEnum :=
  if s = "GBP" then some .GBP
  else if s = "USD" then some .USD
  else none

/-! ## Data model (`investor_models.py` and the Mongo document layout) -/

/-- `CommitmentModel`. -/
structure CommitmentModel where
  asset_class : AssetClassEnum
  amount : ℚ
  currency : CurrencyEnum
deriving DecidableEq

/-- The in-memory per-investor aggregate built by the upload loop
(the `investors_data[investor_name]` dict). -/
structure InvestorData where
  name : String
  investor_type : InvestorTypeEnum
  country : String
  date_added : PyDate
  last_updated : PyDate
  address : String
  commitments : List CommitmentModel
deriving DecidableEq

/-- A commitment as stored in MongoDB: enum fields serialised to their
string values and the amount converted with `float(...)`
(investor_services.py lines 150-158). -/
structure CommitmentDoc where
  asset_class : String
  amount : ℚ
  currency : String
deriving DecidableEq

/-- An investor document as stored in MongoDB (one document per investor,
commitments embedded, `_id` a store-generated string). -/
structure InvestorDoc where
  id : String
  name : String
  investor_type : String
  country : String
  date_added : PyDate
  last_updated : PyDate
  address : Option String
  commitments : List CommitmentDoc
deriving DecidableEq

deriving instance DecidableEq for Except

/-- `HTTPException(status_code, detail)`. -/
structure HTTPException where
  status : Nat
  detail : String
deriving DecidableEq

/-- `CSVUploadResponseModel`. -/
structure CSVUploadResponseModel where
  message : String
  total_investors : Nat
  total_commitments : Nat
  success : Bool
deriving DecidableEq

/-- `InvestorSummaryModel` (computed fields included). -/
structure InvestorSummaryModel where
  id : String
  name : String
  investor_type : String
  country : String
  date_added : PyDate
  address : Option String
  total_commitment_usd : ℚ
  commitment_count : Nat
deriving DecidableEq

/-- `InvestorCommitmentDetailModel`. -/
structure InvestorCommitmentDetailModel where
  id : String
  name : String
  investor_type : String
  country : String
  date_added : PyDate
  address : Option String
  commitments : List CommitmentDoc
  total_commitment_usd : ℚ
deriving DecidableEq

/-- `InvestorFilterModel` (all fields optional). -/
structure InvestorFilterModel where
  asset_class : Option AssetClassEnum := none
  investor_type : Option InvestorTypeEnum := none
  country : Option CountryEnum := none
  min_commitment : Option ℚ := none
  max_commitment : Option ℚ := none
deriving DecidableEq

/-- One data row of the uploaded CSV, keyed by the fixed column headers
(note the upstream typo "Investory Type").  `investor_address` is `none`
when the optional address column is absent. -/
structure CsvRow where
  investor_name : String
  investory_type : String
  investor_country : String
  investor_date_added : String
  investor_last_updated : String
  commitment_asset_class : String
  commitment_amount : String
  commitment_currency : String
  investor_address : Option String := none
deriving DecidableEq

/-! ## Currency conversion (`investor_services.py`) -/

/-- The module-level table `CURRENCY_TO_USD_RATES = {"GBP": 1.25, "USD": 1.0}`
together with the `.get(currency, 1.0)` lookup of `convert_to_usd`
(lines 28-31): unknown codes fall back to rate `1.0`. -/
def convert_to_usd_rate (currency : String) : ℚ :=
  if currency = "GBP" then mkRat 5 4
  else if currency = "USD" then 1
  else 1

/-- `convert_to_usd(amount, currency)` (the `Decimal(str(rate))`
conversion of the float rates 1.25 and 1.0 is exact). -/
def convert_to_usd (amount : ℚ) (currency : String) : ℚ :=
  amount * convert_to_usd_rate currency

/-! ## CSV ingestion (`upload_csv_data`, investor_services.py lines 79-183) -/

/-- `generate_mock_address(country, investor_name)` (lines 34-76).  The
Python function selects a street from a per-country list using the
process-seeded built-in `hash`, so only its shape — a deterministic
function of country and name producing a non-empty string — is modelled;
no claim depends on the exact text. -/
def generate_mock_address (country : String) (investor_name : String) : String :=
  "1 Main Street, " ++ country ++ " / " ++ investor_name

/-- Decide whether `rowCommitment` succeeds: the enum/decimal validation
of `CommitmentModel(asset_class=..., amount=..., currency=...)`
(lines 111-115). -/
def rowCommitment (row : CsvRow) : Option CommitmentModel :=
  match AssetClassEnum.ofString (pyStrip row.commitment_asset_class),
        parseDecimal row.commitment_amount,
        CurrencyEnum.ofString (pyStrip row.commitment_currency) with
  | some ac, some amt, some cur => some ⟨ac, amt, cur⟩
  | _, _, _ => none

/-- The address taken at a first occurrence (lines 120-122): the CSV
address column, trimmed, or a generated mock address when it is blank or
absent. -/
def investorAddress (row : CsvRow) : String :=
  let address0 := pyStrip (row.investor_address.getD "")
  if address0 = "" then
    generate_mock_address (pyStrip row.investor_country) (pyStrip row.investor_name)
  else address0

/-- The `investors_data[investor_name]` dict created at the first
occurrence of an investor name (lines 124-132), before the commitment
append. -/
def firstOccurrence (now : PyDate) (row : CsvRow) (ty : InvestorTypeEnum) :
    InvestorData :=
  { name := pyStrip row.investor_name
    investor_type := ty
    country := pyStrip row.investor_country
    date_added := (parse_dates (pyStrip row.investor_date_added)
        (pyStrip row.investor_last_updated) now).1
    last_updated := (parse_dates (pyStrip row.investor_date_added)
        (pyStrip row.investor_last_updated) now).2
    address := investorAddress row
    commitments := [] }

/-- The body of the `for row in csv_reader` loop (lines 93-135), acting on
the accumulated `(investors_data, total_commitments)` state.  Failures
(`ValueError` from an enum constructor, `InvalidOperation` from
`Decimal`) abort the whole loop as an `Except.error`.  Note that
`InvestorTypeEnum(...)` is evaluated only when the row is the first
occurrence of its (trimmed) investor name. -/
def processRow (now : PyDate) (st : List InvestorData × Nat) (row : CsvRow) :
    Except String (List InvestorData × Nat) :=
  let investor_name := pyStrip row.investor_name
  match rowCommitment row with
  | none => Except.error "invalid commitment field"
  | some commitment =>
      if st.1.any (fun inv => inv.name = investor_name) then
        Except.ok
          (st.1.map (fun inv =>
            if inv.name = investor_name then
              { inv with commitments := inv.commitments ++ [commitment] }
            else inv),
           st.2 + 1)
      else
        match InvestorTypeEnum.ofString (pyStrip row.investory_type) with
        | none => Except.error "invalid investor type"
        | some ty =>
            Except.ok
              (st.1 ++ [{ firstOccurrence now row ty with commitments := [commitment] }],
               st.2 + 1)

/-- The whole ingestion loop, starting from the empty grouping dict. -/
def processRows (now : PyDate) (rows : List CsvRow) :
    Except String (List InvestorData × Nat) :=
  rows.foldlM (processRow now) ([], 0)

/-- Mongo-document serialisation of one commitment (lines 150-158): enum
values to strings, `Decimal` amount through `float(...)`. -/
def commitmentToDoc (c : CommitmentModel) : CommitmentDoc :=
  ⟨c.asset_class.value, roundFloat c.amount, c.currency.value⟩

/-- Mongo-document serialisation of one investor (lines 141-160); `_id`
is assigned by the store. -/
def investorToDoc (id : String) (inv : InvestorData) : InvestorDoc :=
  ⟨id, inv.name, inv.investor_type.value, inv.country,
   inv.date_added, inv.last_updated, some inv.address,
   inv.commitments.map commitmentToDoc⟩

/-- `upload_csv_data(db, file)` (lines 79-183) over an already-tokenised
CSV (`rows` are the `csv.DictReader` data rows), returning the HTTP-level
result together with the investor collection after the call.  `freshIds`
models the store-generated `_id`s of `insert_many`.  On any in-loop
failure the `except` block turns the error into `HTTPException(500, ...)`
— the delete/insert block is only reached after every row has been
processed, so the collection is unchanged on failure; on success the
collection is deleted wholesale and replaced by the new documents
(line 138 `delete_many({})`, line 164 `insert_many`). -/
def upload_csv_data (now : PyDate) (freshIds : Nat → String) (rows : List CsvRow)
    (store : List InvestorDoc) :
    Except HTTPException CSVUploadResponseModel × List InvestorDoc :=
  match processRows now rows with
  | Except.error msg =>
      (Except.error ⟨500, "Error processing CSV file: " ++ msg⟩, store)
  | Except.ok (invs, total_commitments) =>
      (Except.ok ⟨"CSV data uploaded successfully", invs.length,
                  total_commitments, true⟩,
       (invs.enum).map (fun p => investorToDoc (freshIds p.1) p.2))

/-! ## Aggregation / reporting pipelines -/

/-- The `$switch` rate lookup inside `get_investors_summary`'s pipeline
(investor_services.py lines 205-212): GBP → 1.25, USD → 1.0, default
branch 1.25. -/
def summary_pipeline_rate (currency : String) : ℚ :=
  if currency = "GBP" then mkRat 5 4
  else if currency = "USD" then 1
  else mkRat 5 4

/-- The `$switch` rate lookup inside `get_investor_details`'s pipeline
(lines 267-274): textually duplicated from the summary pipeline. -/
def details_pipeline_rate (currency : String) : ℚ :=
  if currency = "GBP" then mkRat 5 4
  else if currency = "USD" then 1
  else mkRat 5 4

/-- The `$switch` rate lookup inside `get_investment_stats`'s pipeline
(investor_routers.py lines 99-106): again duplicated. -/
def stats_pipeline_rate (currency : String) : ℚ :=
  if currency = "GBP" then mkRat 5 4
  else if currency = "USD" then 1
  else mkRat 5 4

/-- `total_commitment_usd` as computed by an aggregation pipeline:
`$sum` over `$map(commitments, amount * switch(currency))`, in binary64
double arithmetic (each `$multiply` and each running `$sum` addition
rounds). -/
def pipelineTotal (rate : String → ℚ) (cs : List CommitmentDoc) : ℚ :=
  cs.foldl (fun acc c => roundFloat (acc + roundFloat (c.amount * rate c.currency))) 0

/-- Descending order on computed totals, the `$sort
{total_commitment_usd: -1}` stage. -/
def summaryGE (a b : InvestorSummaryModel) : Prop :=
  b.total_commitment_usd ≤ a.total_commitment_usd

instance : DecidableRel summaryGE := fun a b =>
  inferInstanceAs (Decidable (b.total_commitment_usd ≤ a.total_commitment_usd))

instance : IsTotal InvestorSummaryModel summaryGE :=
  ⟨fun a b => le_total b.total_commitment_usd a.total_commitment_usd⟩

instance : IsTrans InvestorSummaryModel summaryGE :=
  ⟨fun _ _ _ h1 h2 => le_trans h2 h1⟩

/-- The `$addFields`/`$project` stage of `get_investors_summary` applied
to one stored document. -/
def summaryOfDoc (d : InvestorDoc) : InvestorSummaryModel :=
  ⟨d.id, d.name, d.investor_type, d.country, d.date_added, d.address,
   pipelineTotal summary_pipeline_rate d.commitments, d.commitments.length⟩

/-- `get_investors_summary(db, filters)` (investor_services.py lines
186-245).  The `filters` argument is accepted but never used: the
pipeline has no `$match` stage, so the result is always the full
collection, totalled and sorted by `total_commitment_usd` descending. -/
def get_investors_summary (store : List InvestorDoc)
    (_filters : Option InvestorFilterModel) : List InvestorSummaryModel :=
  List.insertionSort summaryGE (store.map summaryOfDoc)

/-- `bson.ObjectId(s)` accepts exactly the 24-character hex strings;
anything else raises `InvalidId`. -/
def isValidObjectId (s : String) : Bool :=
  s.data.length = 24 &&
    s.data.all (fun c => isDigitChar c || ('a' ≤ c && c ≤ 'f') || ('A' ≤ c && c ≤ 'F'))

/-- `get_investor_details(db, investor_id)` (lines 248-308).  A malformed
id makes `ObjectId(investor_id)` raise before the query runs; that
exception is not an `HTTPException`, so the handler wraps it as
`HTTPException(500, ...)`.  A well-formed id that matches no document
yields the explicit `HTTPException(404, ...)`, which the handler
re-raises unchanged. -/
def get_investor_details (store : List InvestorDoc) (investor_id : String) :
    Except HTTPException InvestorCommitmentDetailModel :=
  if isValidObjectId investor_id then
    match store.find? (fun d => d.id = investor_id) with
    | some d =>
        Except.ok ⟨d.id, d.name, d.investor_type, d.country, d.date_added,
                   d.address, d.commitments,
                   pipelineTotal details_pipeline_rate d.commitments⟩
    | none =>
        Except.error ⟨404, "Investor with id " ++ investor_id ++ " not found"⟩
  else
    Except.error ⟨500, "Error fetching investor details: invalid ObjectId"⟩

/-- The response of the `/investors/stats` endpoint.  The `$group` stage
computes a field named `total_commitment_amount`, but the `$project`
stage asks for `total_commitment_amount_usd`, which does not exist, so
the projected document omits it: the field is `none` in the non-empty
case and `some 0` only in the hand-written empty-collection response. -/
structure StatsResponse where
  total_investors : Nat
  total_commitments : Nat
  unique_countries_count : Nat
  unique_countries : List String
  total_commitment_amount_usd : Option ℚ
deriving DecidableEq

/-- `get_investment_stats(db)` (investor_routers.py lines 76-142).
`$group` over an empty collection emits no document, in which case the
code returns the literal zero response. -/
def get_investment_stats (store : List InvestorDoc) : StatsResponse :=
  if store.isEmpty then ⟨0, 0, 0, [], some 0⟩
  else
    { total_investors := store.length
      total_commitments := (store.map (fun d => d.commitments.length)).sum
      unique_countries_count := (store.map (fun d => d.country)).dedup.length
      unique_countries := (store.map (fun d => d.country)).dedup
      total_commitment_amount_usd := none }

/-! ## Specification-side descriptions of the grouping and the totals -/

/-- The rows of the file that fall to the investor whose trimmed name is
`n`, in file order. -/
def rowsFor (n : String) (rows : List CsvRow) : List CsvRow :=
  rows.filter (fun r => pyStrip r.investor_name = n)

/-- Lookup of an accumulated investor by name (the
`investors_data[investor_name]` dict access; names are unique in the
accumulator). -/
def findByName (n : String) (invs : List InvestorData) : Option InvestorData :=
  invs.find? (fun i => i.name = n)

/-- The investor record that one ingestion pass over `rows` produces for
the name `n`, described directly: metadata from the first row whose
trimmed name is `n`, commitments from every such row in file order.
`none` when no row matches (or when the first matching row's investor
type is invalid, in which case ingestion fails as a whole). -/
def buildFirst (now : PyDate) (n : String) (rows : List CsvRow) :
    Option InvestorData :=
  ((rowsFor n rows).head?).bind (fun r =>
    (InvestorTypeEnum.ofString (pyStrip r.investory_type)).map (fun ty =>
      { firstOccurrence now r ty with
        commitments := (rowsFor n rows).filterMap rowCommitment }))

/-- Modelled from the spec's words, for comparison with `pipelineTotal`
(not from the source): the exact decimal sum of `amount × rate(currency)`
over a list of commitments. -/
def exact_total (rate : String → ℚ) (cs : List CommitmentDoc) : ℚ :=
  (cs.map (fun c => c.amount * rate c.currency)).sum

/-- Every intermediate value of `pipelineTotal`: each product
`amount × rate` and each partial sum, in evaluation order. -/
def pipelineTotalTrace (rate : String → ℚ) (acc : ℚ) :
    List CommitmentDoc → List ℚ
  | [] => []
  | c :: cs =>
      let p := c.amount * rate c.currency
      let s := acc + roundFloat p
      p :: s :: pipelineTotalTrace rate (roundFloat s) cs

/-! ## Concrete data for witnesses and counterexamples -/

/-- Two CSV rows for one investor with amounts 0.1 and 0.2 USD. -/
def rowA : CsvRow :=
  ⟨"Alpha", "bank", "United Kingdom", "2020-01-15", "2020-06-01",
   "Hedge Funds", "0.1", "USD", none⟩

def rowB : CsvRow :=
  ⟨"Alpha", "bank", "United Kingdom", "2020-01-15", "2020-06-01",
   "Private Debt", "0.2", "USD", none⟩

/-- First row of a second investor: 100 GBP. -/
def rowC : CsvRow :=
  ⟨"Beta", "fund manager", "Singapore", "2021-03-02", "2021-03-04",
   "Real Estate", "100", "GBP", some "5 Orchard Road"⟩

/-- Second row of the second investor: 50 USD, with an investor-type
string outside the enumeration (never validated because the row is not
the first occurrence of "Beta"). -/
def rowD : CsvRow :=
  ⟨"Beta", "not a real investor type", "Singapore", "2021-03-02", "2021-03-04",
   "Real Estate", "50", "USD", none⟩

/-- A row whose asset class is outside the 6-value enumeration. -/
def rowBadAsset : CsvRow :=
  ⟨"Gamma", "bank", "China", "2020-01-01", "2020-01-02",
   "Crypto", "10", "USD", none⟩

/-- A fixed processing timestamp standing for `datetime.now()`. -/
def now0 : PyDate := ⟨2025, 6, 1⟩

/-- The grouping that ingesting `[rowA, rowB, rowC]` produces. -/
def invsW : List InvestorData :=
  [⟨"Alpha", InvestorTypeEnum.BANK, "United Kingdom", ⟨2020, 1, 15⟩, ⟨2020, 6, 1⟩,
    "1 Main Street, United Kingdom / Alpha",
    [⟨AssetClassEnum.HEDGE_FUNDS, mkRat 1 10, CurrencyEnum.USD⟩,
     ⟨AssetClassEnum.PRIVATE_DEBT, mkRat 1 5, CurrencyEnum.USD⟩]⟩,
   ⟨"Beta", InvestorTypeEnum.FUND_MANAGER, "Singapore", ⟨2021, 3, 2⟩, ⟨2021, 3, 4⟩,
    "5 Orchard Road",
    [⟨AssetClassEnum.REAL_ESTATE, 100, CurrencyEnum.GBP⟩]⟩]

/-- A deterministic id supply standing for store-generated ObjectIds. -/
def ids0 : Nat → String :=
  fun n => String.mk (List.replicate 23 '0') ++ (Char.ofNat (48 + n % 10)).toString

/-- A stored investor document used as pre-existing collection content. -/
def docChina : InvestorDoc :=
  ⟨"64a000000000000000000001", "Zhang Fund", "bank", "China",
   ⟨2020, 1, 1⟩, ⟨2020, 1, 2⟩, some "1 Nathan Road",
   [⟨"Real Estate", 10, "USD"⟩]⟩

/-- A filter asking for Singapore only. -/
def filterSingapore : InvestorFilterModel :=
  ⟨none, none, some CountryEnum.SINGAPORE, none, none⟩

/-! ## Claims -/

/-- Claim C9: `UploadCSV` on a well-formed input with a header but zero data
rows succeeds and reports zero investors and zero commitments; and
`GetPortfolioStatistics` on an empty collection returns zero counts, an
empty country set and zero total amount, not an error. -/
theorem claim_C9 (now : PyDate) (freshIds : Nat → String) (store : List InvestorDoc) :
    (upload_csv_data now freshIds [] store).1 =
      Except.ok ⟨"CSV data uploaded successfully", 0, 0, true⟩ ∧
    get_investment_stats [] = ⟨0, 0, 0, [], some 0⟩ :=
  ⟨rfl, rfl⟩

/-- Claim C10: `UploadCSV` with zero data rows is destructive: the
unconditional delete-all runs and the bulk insert is skipped, so after a
successful zero-row upload the collection is empty regardless of its
previous content, and a subsequent `ListSummaries` returns the empty
list. -/
theorem claim_C10 (now : PyDate) (freshIds : Nat → String) (store : List InvestorDoc) :
    (upload_csv_data now freshIds [] store).2 = [] ∧
    get_investors_summary [] none = [] :=
  ⟨rfl, rfl⟩

/-- Counterexample to claim C7: a filter for Singapore still returns the summary
of an investor whose country is China, so `ListSummariesFiltered` does
not return only the summaries matching the provided constraints. -/
theorem claim_C7_counterexample :
    get_investors_summary [docChina] (some filterSingapore) = [summaryOfDoc docChina] ∧
    (summaryOfDoc docChina).country = "China" ∧
    filterSingapore.country = some CountryEnum.SINGAPORE ∧
    CountryEnum.SINGAPORE.value ≠ "China" := by
  decide

/-- Claim C7 as amended: the filter argument of `ListSummariesFiltered` is
accepted but completely ignored — the pipeline contains no filtering
stage, so the result always equals the unfiltered `ListSummaries`
output. -/
theorem claim_C7 (store : List InvestorDoc) (filters : Option InvestorFilterModel) :
    get_investors_summary store filters = get_investors_summary store none :=
  rfl

/-- Counterexample to claim C2: for the unknown currency code "EUR",
`convert_to_usd` falls back to rate 1.0 (the claim says the default is
not 1.0), while the summary aggregation pipeline falls back to 1.25 —
so the default is also not the same wherever conversion is performed. -/
theorem claim_C2_counterexample :
    convert_to_usd_rate "EUR" = 1 ∧
    convert_to_usd 10 "EUR" = 10 ∧
    summary_pipeline_rate "EUR" = mkRat 5 4 ∧
    convert_to_usd_rate "EUR" ≠ summary_pipeline_rate "EUR" := by
  decide

/-- Claim C2 as amended: every *aggregation pipeline* (summary, detail, stats)
falls back to the same default rate 1.25 for a code that is neither GBP
nor USD; the unused helper `convert_to_usd`, however, falls back to
rate 1.0. -/
theorem claim_C2 (c : String) (h1 : c ≠ "GBP") (h2 : c ≠ "USD") :
    summary_pipeline_rate c = mkRat 5 4 ∧
    details_pipeline_rate c = mkRat 5 4 ∧
    stats_pipeline_rate c = mkRat 5 4 ∧
    convert_to_usd_rate c = 1 := by
  refine ⟨?_, ?_, ?_, ?_⟩ <;>
    simp [summary_pipeline_rate, details_pipeline_rate, stats_pipeline_rate,
          convert_to_usd_rate, h1, h2]

/-- Witness for C2 at the concrete unknown code "EUR". -/
theorem claim_C2_witness :
    summary_pipeline_rate "EUR" = mkRat 5 4 ∧
    details_pipeline_rate "EUR" = mkRat 5 4 ∧
    stats_pipeline_rate "EUR" = mkRat 5 4 ∧
    convert_to_usd_rate "EUR" = 1 :=
  claim_C2 "EUR" (by decide) (by decide)

/-- Claim C8: the list returned by `ListSummaries` (with or without the unused
filter argument) is sorted by `total_commitment_usd` in descending
order. -/
theorem claim_C8 (store : List InvestorDoc) (filters : Option InvestorFilterModel) :
    (get_investors_summary store filters).Pairwise
      (fun a b => b.total_commitment_usd ≤ a.total_commitment_usd) :=
  List.sorted_insertionSort summaryGE (store.map summaryOfDoc)

/-- Counterexample to claim C6: a malformed identifier ("abc" is not a 24-char
hex ObjectId) makes `GetInvestorDetail` answer with HTTP 500 — a server
error — not with the client-visible NotFound/BadRequest the claim
requires. -/
theorem claim_C6_counterexample :
    get_investor_details [docChina] "abc" =
      Except.error ⟨500, "Error fetching investor details: invalid ObjectId"⟩ ∧
    (500 : Nat) ≠ 404 ∧ (500 : Nat) ≠ 400 := by
  decide

/-- Claim C6 as amended: a well-formed identifier that resolves to no stored
investor yields NotFound (404); a malformed identifier yields an
internal-style HTTP 500 (no crash, but a server error rather than a
client error). -/
theorem claim_C6 (store : List InvestorDoc) (investor_id : String) :
    (isValidObjectId investor_id = true → (∀ d ∈ store, d.id ≠ investor_id) →
      get_investor_details store investor_id =
        Except.error ⟨404, "Investor with id " ++ investor_id ++ " not found"⟩) ∧
    (isValidObjectId investor_id = false →
      get_investor_details store investor_id =
        Except.error ⟨500, "Error fetching investor details: invalid ObjectId"⟩) := by
  constructor
  · intro hv habs
    have hf : store.find? (fun d => d.id = investor_id) = none := by
      rw [List.find?_eq_none]
      intro d hd
      simpa using habs d hd
    simp [get_investor_details, hv, hf]
  · intro hv
    simp [get_investor_details, hv]

/-- Witness for C6: a fresh well-formed id on a non-empty store gives
404; a malformed id gives 500. -/
theorem claim_C6_witness :
    get_investor_details [docChina] "ffffffffffffffffffffffff" =
      Except.error ⟨404, "Investor with id " ++ "ffffffffffffffffffffffff" ++ " not found"⟩ ∧
    get_investor_details [docChina] "zzz" =
      Except.error ⟨500, "Error fetching investor details: invalid ObjectId"⟩ :=
  ⟨(claim_C6 [docChina] "ffffffffffffffffffffffff").1 (by decide) (by decide),
   (claim_C6 [docChina] "zzz").2 (by decide)⟩

/-- Counterexample to claim C4: the two date fields are *not* parsed
independently.  Here the first field is valid ISO and the second valid
US slash format; independent parsing would produce the two parsed dates,
but the code's joint try/except substitutes the processing timestamp for
*both* fields. -/
theorem claim_C4_counterexample :
    parse_date_field_independent "2020-01-15" now0 = ⟨2020, 1, 15⟩ ∧
    parse_date_field_independent "01/20/2020" now0 = ⟨2020, 1, 20⟩ ∧
    parse_dates "2020-01-15" "01/20/2020" now0 = (now0, now0) ∧
    parse_dates "2020-01-15" "01/20/2020" now0 ≠
      (parse_date_field_independent "2020-01-15" now0,
       parse_date_field_independent "01/20/2020" now0) := by
  decide

/-- Claim C4 as amended: the pair of date fields is parsed *jointly*: both in
ISO format; if either fails, both are retried in US slash format; if
that also fails for either, both fields are replaced by the processing
timestamp.  A row is never rejected because of its dates: `processRow`
can only fail on commitment validation (asset class / amount / currency)
or, at a first occurrence, on the investor type — never on the date
fields. -/
theorem claim_C4 (s1 s2 : String) (now : PyDate) :
    (∀ d1 d2, parse_date_iso s1 = some d1 → parse_date_iso s2 = some d2 →
      parse_dates s1 s2 now = (d1, d2)) ∧
    (∀ d1 d2, (parse_date_iso s1 = none ∨ parse_date_iso s2 = none) →
      parse_date_us s1 = some d1 → parse_date_us s2 = some d2 →
      parse_dates s1 s2 now = (d1, d2)) ∧
    ((parse_date_iso s1 = none ∨ parse_date_iso s2 = none) →
      (parse_date_us s1 = none ∨ parse_date_us s2 = none) →
      parse_dates s1 s2 now = (now, now)) ∧
    (∀ (st : List InvestorData × Nat) (row : CsvRow) (e : String),
      processRow now st row = Except.error e →
      rowCommitment row = none ∨
        InvestorTypeEnum.ofString (pyStrip row.investory_type) = none) := by
  refine ⟨?_, ?_, ?_, ?_⟩
  · intro d1 d2 h1 h2
    simp [parse_dates, h1, h2]
  · intro d1 d2 hnone hu1 hu2
    cases hi1 : parse_date_iso s1 <;> cases hi2 : parse_date_iso s2 <;>
      simp_all [parse_dates]
  · intro hnone hus
    cases hi1 : parse_date_iso s1 <;> cases hi2 : parse_date_iso s2 <;>
      cases hu1 : parse_date_us s1 <;> cases hu2 : parse_date_us s2 <;>
      simp_all [parse_dates]
  · intro st row e h
    cases hc : rowCommitment row with
    | none => exact Or.inl rfl
    | some cm =>
        by_cases hmem : st.1.any (fun inv => inv.name = pyStrip row.investor_name)
        · simp [processRow, hc, hmem] at h
        · cases ht : InvestorTypeEnum.ofString (pyStrip row.investory_type) with
          | none => exact Or.inr rfl
          | some ty => simp [processRow, hc, hmem, ht] at h

/-- Witness for C4, exercising all three joint-parsing branches and the
date-independence of row failure on a concrete bad row. -/
theorem claim_C4_witness :
    parse_dates "2020-01-15" "2020-06-01" now0 = (⟨2020, 1, 15⟩, ⟨2020, 6, 1⟩) ∧
    parse_dates "01/15/2020" "02/20/2020" now0 = (⟨2020, 1, 15⟩, ⟨2020, 2, 20⟩) ∧
    parse_dates "2020-01-15" "garbage" now0 = (now0, now0) ∧
    (rowCommitment rowBadAsset = none ∨
      InvestorTypeEnum.ofString (pyStrip rowBadAsset.investory_type) = none) :=
  ⟨(claim_C4 "2020-01-15" "2020-06-01" now0).1 ⟨2020, 1, 15⟩ ⟨2020, 6, 1⟩
      (by decide) (by decide),
   (claim_C4 "01/15/2020" "02/20/2020" now0).2.1 ⟨2020, 1, 15⟩ ⟨2020, 2, 20⟩
      (by decide) (by decide) (by decide),
   (claim_C4 "2020-01-15" "garbage" now0).2.2.1 (by decide) (by decide),
   (claim_C4 "x" "y" now0).2.2.2 ([], 0) rowBadAsset "invalid commitment field"
      (by decide)⟩

/-- A row whose asset-class or currency string is outside its
enumeration never yields a commitment. -/
theorem rowCommitment_eq_none_of_bad (r : CsvRow)
    (h : AssetClassEnum.ofString (pyStrip r.commitment_asset_class) = none ∨
         CurrencyEnum.ofString (pyStrip r.commitment_currency) = none) :
    rowCommitment r = none := by
  cases ha : AssetClassEnum.ofString (pyStrip r.commitment_asset_class) <;>
    cases hd : parseDecimal r.commitment_amount <;>
    cases hc : CurrencyEnum.ofString (pyStrip r.commitment_currency) <;>
    simp_all [rowCommitment]

/-- Processing such a row fails regardless of the accumulated state. -/
theorem processRow_error_of_bad (now : PyDate) (st : List InvestorData × Nat)
    (r : CsvRow)
    (h : AssetClassEnum.ofString (pyStrip r.commitment_asset_class) = none ∨
         CurrencyEnum.ofString (pyStrip r.commitment_currency) = none) :
    processRow now st r = Except.error "invalid commitment field" := by
  simp [processRow, rowCommitment_eq_none_of_bad r h]

/-- If any row of the file has a bad asset class or currency, the whole
ingestion loop fails, from any starting state. -/
theorem processRows_go_error (now : PyDate) :
    ∀ (rows : List CsvRow) (st : List InvestorData × Nat),
      (∃ r ∈ rows, AssetClassEnum.ofString (pyStrip r.commitment_asset_class) = none ∨
        CurrencyEnum.ofString (pyStrip r.commitment_currency) = none) →
      ∃ e, List.foldlM (processRow now) st rows = Except.error e := by
  intro rows
  induction rows with
  | nil =>
      intro st h
      rcases h with ⟨r, hr, _⟩
      simp at hr
  | cons a l ih =>
      intro st h
      cases hp : processRow now st a with
      | error e =>
          refine ⟨e, ?_⟩
          rw [List.foldlM_cons, hp]
          rfl
      | ok st' =>
          rcases h with ⟨r, hr, hbad⟩
          rcases List.mem_cons.mp hr with rfl | hmem
          · rw [processRow_error_of_bad now st r hbad] at hp
            cases hp
          · rcases ih st' ⟨r, hmem, hbad⟩ with ⟨e, he⟩
            refine ⟨e, ?_⟩
            rw [List.foldlM_cons, hp]
            exact he

/-- Counterexample to claim C3, refuting both halves of the claim on the code:
(1) a row with an asset class outside the enumeration aborts the upload
with HTTP 500 — an internal/server error, not the client-visible
ClientError the claim requires (though the prior collection is indeed
untouched); (2) a row whose *investor type* is outside the enumeration
does not fail the upload at all when it is not the first occurrence of
its investor name (`rowD`), because the code only evaluates
`InvestorTypeEnum(...)` at first occurrences. -/
theorem claim_C3_counterexample :
    (upload_csv_data now0 ids0 [rowBadAsset] [docChina]).1 =
      Except.error ⟨500, "Error processing CSV file: invalid commitment field"⟩ ∧
    (500 : Nat) ≠ 400 ∧ (500 : Nat) ≠ 422 ∧
    InvestorTypeEnum.ofString (pyStrip rowD.investory_type) = none ∧
    (upload_csv_data now0 ids0 [rowC, rowD] []).1 =
      Except.ok ⟨"CSV data uploaded successfully", 1, 2, true⟩ := by
  decide

/-- Claim C3 as amended: if any CSV row has an asset-class or currency value
outside its fixed enumeration, the whole upload is aborted with an HTTP
500 error (not a 4xx client error), and nothing from the upload is
persisted: the externally visible collection is exactly what it was
before the call, because the delete/insert block runs only after every
row has validated.  (Investor type is validated only on rows that are
the first occurrence of their investor name.) -/
theorem claim_C3 (now : PyDate) (freshIds : Nat → String) (rows : List CsvRow)
    (store : List InvestorDoc)
    (h : ∃ r ∈ rows, AssetClassEnum.ofString (pyStrip r.commitment_asset_class) = none ∨
          CurrencyEnum.ofString (pyStrip r.commitment_currency) = none) :
    (∃ msg, (upload_csv_data now freshIds rows store).1 = Except.error ⟨500, msg⟩) ∧
    (upload_csv_data now freshIds rows store).2 = store := by
  rcases processRows_go_error now rows ([], 0) h with ⟨e, he⟩
  have hp : processRows now rows = Except.error e := he
  exact ⟨⟨"Error processing CSV file: " ++ e, by simp [upload_csv_data, hp]⟩,
         by simp [upload_csv_data, hp]⟩

/-- Witness for C3 at a concrete bad upload over a non-empty
collection. -/
theorem claim_C3_witness :
    (∃ msg, (upload_csv_data now0 ids0 [rowBadAsset] [docChina]).1 =
      Except.error ⟨500, msg⟩) ∧
    (upload_csv_data now0 ids0 [rowBadAsset] [docChina]).2 = [docChina] :=
  claim_C3 now0 ids0 [rowBadAsset] [docChina]
    ⟨rowBadAsset, by decide, by decide⟩

/-- The fold of `pipelineTotal` from an arbitrary accumulator equals the
exact decimal sum whenever every intermediate product and partial sum is
a fixed point of binary64 rounding. -/
theorem pipelineTotal_go (rate : String → ℚ) :
    ∀ (cs : List CommitmentDoc) (acc : ℚ),
      (∀ q ∈ pipelineTotalTrace rate acc cs, roundFloat q = q) →
      cs.foldl (fun a c => roundFloat (a + roundFloat (c.amount * rate c.currency))) acc
        = acc + exact_total rate cs := by
  intro cs
  induction cs with
  | nil =>
      intro acc h
      simp [exact_total]
  | cons c cs ih =>
      intro acc h
      have hp : roundFloat (c.amount * rate c.currency) = c.amount * rate c.currency :=
        h _ (by simp [pipelineTotalTrace])
      have hs : roundFloat (acc + roundFloat (c.amount * rate c.currency))
          = acc + roundFloat (c.amount * rate c.currency) :=
        h _ (by simp [pipelineTotalTrace])
      rw [hp] at hs
      have htail : ∀ q ∈ pipelineTotalTrace rate (acc + c.amount * rate c.currency) cs,
          roundFloat q = q := by
        intro q hq
        apply h
        simp only [pipelineTotalTrace, List.mem_cons]
        right; right
        rw [hp, hs]
        exact hq
      rw [List.foldl_cons, hp, hs, ih _ htail]
      simp [exact_total, add_assoc]

/-- Counterexample to claim C1: ingesting one investor with commitments of 0.1
and 0.2 USD and listing the summaries yields the binary64 value
`0.30000000000000004440892098500626...`, not the exact decimal sum 0.3:
amounts are stored through `float(...)` and totalled in Mongo double
arithmetic, not in exact decimal arithmetic. -/
theorem claim_C1_counterexample :
    (get_investors_summary (upload_csv_data now0 ids0 [rowA, rowB] []).2 none).map
        (fun s => s.total_commitment_usd) =
      [mkRat 5404319552844596 18014398509481984] ∧
    exact_total summary_pipeline_rate
        [⟨"Hedge Funds", mkRat 1 10, "USD"⟩, ⟨"Private Debt", mkRat 1 5, "USD"⟩] =
      mkRat 3 10 ∧
    mkRat 5404319552844596 18014398509481984 ≠ mkRat 3 10 := by
  decide

/-- Claim C1 as amended: `total_commitment_usd` is the binary64
floating-point evaluation of `Σ amount × rate(currency)` (each stored
amount is a double, each multiplication and each running addition is
rounded to the nearest double).  Whenever every intermediate product and
partial sum is exactly representable as a double, this coincides with
the exact decimal sum — in particular one commitment of 100 at rate 1.25
plus one of 50 at rate 1.0 yields exactly 175.00. -/
theorem claim_C1 (rate : String → ℚ) (cs : List CommitmentDoc)
    (h : ∀ q ∈ pipelineTotalTrace rate 0 cs, roundFloat q = q) :
    pipelineTotal rate cs = exact_total rate cs := by
  have := pipelineTotal_go rate cs 0 h
  simpa [pipelineTotal] using this

/-- Witness for C1 at the spec's own example: 100 GBP at rate 1.25 plus
50 USD at rate 1.0 gives exactly 175. -/
theorem claim_C1_witness :
    pipelineTotal summary_pipeline_rate
        [⟨"Real Estate", 100, "GBP"⟩, ⟨"Real Estate", 50, "USD"⟩] =
      exact_total summary_pipeline_rate
        [⟨"Real Estate", 100, "GBP"⟩, ⟨"Real Estate", 50, "USD"⟩] ∧
    exact_total summary_pipeline_rate
        [⟨"Real Estate", 100, "GBP"⟩, ⟨"Real Estate", 50, "USD"⟩] = 175 :=
  ⟨claim_C1 summary_pipeline_rate
      [⟨"Real Estate", 100, "GBP"⟩, ⟨"Real Estate", 50, "USD"⟩] (by decide),
   by decide⟩

/-! ### Grouping lemmas for C5 -/

theorem findByName_nil (n : String) : findByName n [] = none := rfl

theorem findByName_cons (n : String) (i : InvestorData) (l : List InvestorData) :
    findByName n (i :: l) = if i.name = n then some i else findByName n l := by
  by_cases h : i.name = n <;> simp [findByName, List.find?_cons, h]

theorem findByName_map (n : String) (g : InvestorData → InvestorData)
    (hg : ∀ i, (g i).name = i.name) (invs : List InvestorData) :
    findByName n (invs.map g) = (findByName n invs).map g := by
  induction invs with
  | nil => rfl
  | cons i l ih =>
      by_cases h : i.name = n
      · simp [List.map_cons, findByName_cons, hg, h]
      · simp [List.map_cons, findByName_cons, hg, h, ih]

theorem findByName_append (n : String) (l1 l2 : List InvestorData) :
    findByName n (l1 ++ l2) =
      match findByName n l1 with
      | some i => some i
      | none => findByName n l2 := by
  induction l1 with
  | nil => simp [findByName_nil]
  | cons i l ih =>
      by_cases h : i.name = n <;>
        simp [List.cons_append, findByName_cons, h, ih]

theorem findByName_eq_none_iff (n : String) (l : List InvestorData) :
    findByName n l = none ↔ ∀ i ∈ l, i.name ≠ n := by
  simp [findByName, List.find?_eq_none]

theorem findByName_some_of_any (n : String) (l : List InvestorData)
    (h : l.any (fun i => i.name = n) = true) :
    ∃ i, findByName n l = some i := by
  induction l with
  | nil => simp at h
  | cons i l ih =>
      by_cases hi : i.name = n
      · exact ⟨i, by simp [findByName_cons, hi]⟩
      · simp only [List.any_cons, Bool.or_eq_true] at h
        rcases h with h | h
        · simp [hi] at h
        · rcases ih h with ⟨j, hj⟩
          exact ⟨j, by simp [findByName_cons, hi, hj]⟩

theorem findByName_name (n : String) (l : List InvestorData) (i : InvestorData)
    (h : findByName n l = some i) : i.name = n := by
  have := List.find?_some h
  simpa using this

theorem findByName_mem (n : String) (l : List InvestorData) (i : InvestorData)
    (h : findByName n l = some i) : i ∈ l :=
  List.mem_of_find?_eq_some h

theorem findByName_of_mem_nodup (invs : List InvestorData)
    (hnd : (invs.map (fun i => i.name)).Nodup) (inv : InvestorData)
    (hm : inv ∈ invs) : findByName inv.name invs = some inv := by
  induction invs with
  | nil => cases hm
  | cons a l ih =>
      simp only [List.map_cons, List.nodup_cons] at hnd
      rcases List.mem_cons.mp hm with rfl | hm'
      · simp [findByName_cons]
      · have hne : a.name ≠ inv.name := by
          intro he
          exact hnd.1 (he ▸ List.mem_map_of_mem (fun i => i.name) hm')
        simp [findByName_cons, hne, ih hnd.2 hm']

theorem rowsFor_cons_of_eq (n : String) (row : CsvRow) (rest : List CsvRow)
    (h : pyStrip row.investor_name = n) :
    rowsFor n (row :: rest) = row :: rowsFor n rest := by
  simp [rowsFor, List.filter_cons, h]

theorem rowsFor_cons_of_ne (n : String) (row : CsvRow) (rest : List CsvRow)
    (h : pyStrip row.investor_name ≠ n) :
    rowsFor n (row :: rest) = rowsFor n rest := by
  simp [rowsFor, List.filter_cons, h]

theorem buildFirst_congr (now : PyDate) (n : String) (rows1 rows2 : List CsvRow)
    (h : rowsFor n rows1 = rowsFor n rows2) :
    buildFirst now n rows1 = buildFirst now n rows2 := by
  unfold buildFirst
  rw [h]

theorem length_filterMap_of_forall_isSome {α β : Type} (f : α → Option β) :
    ∀ l : List α, (∀ x ∈ l, ∃ y, f x = some y) →
      (l.filterMap f).length = l.length := by
  intro l
  induction l with
  | nil => simp
  | cons a l ih =>
      intro h
      rcases h a (by simp) with ⟨y, hy⟩
      simp [List.filterMap_cons, hy, ih (fun x hx => h x (by simp [hx]))]

theorem except_bind_error {ε α β : Type} (e : ε) (f : α → Except ε β) :
    (Except.error e >>= f) = Except.error e := rfl

theorem except_bind_ok {ε α β : Type} (a : α) (f : α → Except ε β) :
    (Except.ok a >>= f) = f a := rfl

theorem map_name_update (nm : String) (cm : CommitmentModel)
    (l : List InvestorData) :
    (l.map (fun inv => if inv.name = nm then
        { inv with commitments := inv.commitments ++ [cm] } else inv)).map
      (fun i => i.name) = l.map (fun i => i.name) := by
  induction l with
  | nil => rfl
  | cons a l ih => by_cases ha : a.name = nm <;> simp [ha, ih]

/-- Invariant of the ingestion loop: starting from any accumulated
grouping state, a successful pass over `rows` adds one commitment per
row to the entry of the row's trimmed name (in file order), creating the
entry from the row's metadata at its first occurrence, and counts every
row. -/
theorem processRows_go_ok (now : PyDate) :
    ∀ (rows : List CsvRow) (acc : List InvestorData) (t : Nat)
      (invs : List InvestorData) (total : Nat),
      List.foldlM (processRow now) (acc, t) rows = Except.ok (invs, total) →
      total = t + rows.length ∧
      ((acc.map (fun i => i.name)).Nodup → (invs.map (fun i => i.name)).Nodup) ∧
      (∀ r ∈ rows, ∃ c, rowCommitment r = some c) ∧
      (∀ r ∈ rows, ∃ inv, findByName (pyStrip r.investor_name) invs = some inv) ∧
      (∀ n, findByName n invs =
        match findByName n acc with
        | some inv => some { inv with commitments :=
            inv.commitments ++ (rowsFor n rows).filterMap rowCommitment }
        | none => buildFirst now n rows) := by
  intro rows
  induction rows with
  | nil =>
      intro acc t invs total h
      have h' : (Except.ok (acc, t) : Except String (List InvestorData × Nat)) =
          Except.ok (invs, total) := h
      have hpair : (acc, t) = (invs, total) := by injection h'
      have hacc : acc = invs := congrArg Prod.fst hpair
      have ht : t = total := congrArg Prod.snd hpair
      subst hacc
      subst ht
      refine ⟨by simp, fun hnd => hnd, by simp, by simp, ?_⟩
      intro n
      cases hf : findByName n acc <;> simp [hf, rowsFor, buildFirst]
  | cons row rest ih =>
      intro acc t invs total h
      rw [List.foldlM_cons] at h
      cases hp : processRow now (acc, t) row with
      | error e =>
          rw [hp, except_bind_error] at h
          exact Except.noConfusion h
      | ok st' =>
          rw [hp, except_bind_ok] at h
          cases hc : rowCommitment row with
          | none => simp [processRow, hc] at hp
          | some cm =>
              by_cases hmem :
                  acc.any (fun inv => inv.name = pyStrip row.investor_name) = true
              · -- the row's name already has an entry: append the commitment
                have hst' : (acc.map (fun inv =>
                    if inv.name = pyStrip row.investor_name then
                      { inv with commitments := inv.commitments ++ [cm] }
                    else inv), t + 1) = st' := by
                  have := hp
                  simp only [processRow, hc, hmem, if_true] at this
                  exact Except.ok.inj this
                rw [← hst'] at h
                obtain ⟨hA, hB, hE, hD, hC⟩ := ih _ _ invs total h
                have hgname : ∀ i : InvestorData, ((fun inv =>
                    if inv.name = pyStrip row.investor_name then
                      { inv with commitments := inv.commitments ++ [cm] }
                    else inv) i).name = i.name := by
                  intro i
                  by_cases hi : i.name = pyStrip row.investor_name <;> simp [hi]
                refine ⟨?_, ?_, ?_, ?_, ?_⟩
                · rw [hA]
                  simp only [List.length_cons]
                  omega
                · intro hnd
                  apply hB
                  rw [map_name_update]
                  exact hnd
                · intro r hr
                  rcases List.mem_cons.mp hr with rfl | hmem'
                  · exact ⟨cm, hc⟩
                  · exact hE r hmem'
                · intro r hr
                  rcases List.mem_cons.mp hr with rfl | hmem'
                  · rcases findByName_some_of_any _ acc hmem with ⟨i0, hi0⟩
                    have hx := hC (pyStrip r.investor_name)
                    rw [findByName_map _ _ hgname acc, hi0] at hx
                    exact ⟨_, hx⟩
                  · exact hD r hmem'
                · intro n
                  rw [hC n, findByName_map _ _ hgname acc]
                  cases hf : findByName n acc with
                  | none =>
                      have hne : pyStrip row.investor_name ≠ n := by
                        intro he
                        rcases findByName_some_of_any n acc (by rw [← he]; exact hmem)
                          with ⟨i0, hi0⟩
                        rw [hf] at hi0
                        exact Option.noConfusion hi0
                      simp only [Option.map_none']
                      exact (buildFirst_congr now n rest (row :: rest)
                        (rowsFor_cons_of_ne n row rest hne).symm)
                  | some i0 =>
                      have hi0name : i0.name = n := findByName_name n acc i0 hf
                      by_cases hn : pyStrip row.investor_name = n
                      · have hgi : (fun inv =>
                            if inv.name = pyStrip row.investor_name then
                              { inv with commitments := inv.commitments ++ [cm] }
                            else inv) i0 =
                            { i0 with commitments := i0.commitments ++ [cm] } := by
                          simp [hi0name, hn]
                        simp only [Option.map_some', hgi,
                          rowsFor_cons_of_eq n row rest hn, List.filterMap_cons, hc]
                        simp [List.append_assoc]
                      · have hgi : (fun inv =>
                            if inv.name = pyStrip row.investor_name then
                              { inv with commitments := inv.commitments ++ [cm] }
                            else inv) i0 = i0 := by
                          have : i0.name ≠ pyStrip row.investor_name := by
                            rw [hi0name]
                            exact fun he => hn he.symm
                          simp [this]
                        simp only [Option.map_some', hgi,
                          rowsFor_cons_of_ne n row rest hn]
              · -- first occurrence of the row's name: create the entry
                have hfnone : findByName (pyStrip row.investor_name) acc = none := by
                  rw [findByName_eq_none_iff]
                  intro i hi he
                  exact hmem (List.any_eq_true.mpr ⟨i, hi, by simp [he]⟩)
                cases ht : InvestorTypeEnum.ofString (pyStrip row.investory_type) with
                | none => simp [processRow, hc, hmem, ht] at hp
                | some ty =>
                    have hst' : (acc ++
                        [{ firstOccurrence now row ty with commitments := [cm] }],
                        t + 1) = st' := by
                      have := hp
                      simp only [processRow, hc, hmem, ht, if_false,
                        Bool.false_eq_true] at this
                      exact Except.ok.inj this
                    rw [← hst'] at h
                    obtain ⟨hA, hB, hE, hD, hC⟩ := ih _ _ invs total h
                    have hnotin : ∀ i ∈ acc, i.name ≠ pyStrip row.investor_name :=
                      (findByName_eq_none_iff _ acc).mp hfnone
                    refine ⟨?_, ?_, ?_, ?_, ?_⟩
                    · rw [hA]
                      simp only [List.length_cons]
                      omega
                    · intro hnd
                      apply hB
                      simp only [List.map_append, List.map_cons, List.map_nil]
                      rw [List.nodup_append]
                      refine ⟨hnd, List.nodup_singleton _, ?_⟩
                      intro x hx hx'
                      simp only [List.mem_singleton] at hx'
                      rcases List.mem_map.mp hx with ⟨i, hi, rfl⟩
                      exact hnotin i hi hx'
                    · intro r hr
                      rcases List.mem_cons.mp hr with rfl | hmem'
                      · exact ⟨cm, hc⟩
                      · exact hE r hmem'
                    · intro r hr
                      rcases List.mem_cons.mp hr with rfl | hmem'
                      · have hx := hC (pyStrip r.investor_name)
                        rw [findByName_append, hfnone] at hx
                        have hnew : findByName (pyStrip r.investor_name)
                            [{ firstOccurrence now r ty with commitments := [cm] }] =
                            some { firstOccurrence now r ty with commitments := [cm] } := by
                          simp [findByName_cons, findByName_nil, firstOccurrence]
                        rw [hnew] at hx
                        exact ⟨_, hx⟩
                      · exact hD r hmem'
                    · intro n
                      rw [hC n, findByName_append]
                      cases hf : findByName n acc with
                      | some i0 =>
                          have hne : pyStrip row.investor_name ≠ n := by
                            intro he
                            rw [he] at hfnone
                            rw [hfnone] at hf
                            exact Option.noConfusion hf
                          simp only []
                          rw [rowsFor_cons_of_ne n row rest hne]
                      | none =>
                          by_cases hn : pyStrip row.investor_name = n
                          · have hnew : findByName n
                                [{ firstOccurrence now row ty with commitments := [cm] }] =
                                some { firstOccurrence now row ty
                                       with commitments := [cm] } := by
                              simp [findByName_cons, findByName_nil, firstOccurrence, hn]
                            simp only [hnew]
                            have hbf : buildFirst now n (row :: rest) =
                                some { firstOccurrence now row ty with
                                       commitments := (row :: rowsFor n rest).filterMap rowCommitment } := by
                              unfold buildFirst
                              rw [rowsFor_cons_of_eq n row rest hn]
                              simp [ht]
                            rw [hbf]
                            simp [List.filterMap_cons, hc]
                          · have hnew : findByName n
                                [{ firstOccurrence now row ty with commitments := [cm] }] =
                                none := by
                              simp [findByName_cons, findByName_nil, firstOccurrence, hn]
                            simp only [hnew]
                            exact (buildFirst_congr now n rest (row :: rest)
                              (rowsFor_cons_of_ne n row rest hn).symm)

/-- Claim C5: after ingesting a CSV, rows sharing a trimmed investor name form
exactly one investor (names in the grouping are distinct and every row's
name is represented); that investor is exactly `buildFirst`: metadata
(investor type, country, dates, address) from the first occurrence and
one commitment per matching row in file order; and the
`commitment_count` reported by the summaries of the freshly stored
collection equals the number of rows grouped under that name. -/
theorem claim_C5 (now : PyDate) (freshIds : Nat → String) (rows : List CsvRow)
    (store : List InvestorDoc) (invs : List InvestorData) (total : Nat)
    (h : processRows now rows = Except.ok (invs, total)) :
    total = rows.length ∧
    (invs.map (fun i => i.name)).Nodup ∧
    (∀ r ∈ rows, ∃ inv ∈ invs, inv.name = pyStrip r.investor_name) ∧
    (∀ inv ∈ invs, buildFirst now inv.name rows = some inv) ∧
    (∀ inv ∈ invs,
      inv.commitments = (rowsFor inv.name rows).filterMap rowCommitment ∧
      inv.commitments.length = (rowsFor inv.name rows).length) ∧
    (∀ s ∈ get_investors_summary (upload_csv_data now freshIds rows store).2 none,
      s.commitment_count = (rowsFor s.name rows).length) := by
  obtain ⟨hA, hB, hE, hD, hC⟩ := processRows_go_ok now rows [] 0 invs total h
  have hchar : ∀ n, findByName n invs = buildFirst now n rows := fun n => hC n
  have hnodup : (invs.map (fun i => i.name)).Nodup := hB (by simp)
  have hbuild : ∀ inv ∈ invs, buildFirst now inv.name rows = some inv := by
    intro inv hm
    rw [← hchar inv.name]
    exact findByName_of_mem_nodup invs hnodup inv hm
  have hcomm : ∀ inv ∈ invs,
      inv.commitments = (rowsFor inv.name rows).filterMap rowCommitment ∧
      inv.commitments.length = (rowsFor inv.name rows).length := by
    intro inv hm
    have hbf := hbuild inv hm
    unfold buildFirst at hbf
    cases hhead : (rowsFor inv.name rows).head? with
    | none => rw [hhead] at hbf; simp at hbf
    | some r =>
        rw [hhead] at hbf
        simp only [Option.some_bind] at hbf
        cases hty : InvestorTypeEnum.ofString (pyStrip r.investory_type) with
        | none => rw [hty] at hbf; simp at hbf
        | some ty =>
            rw [hty] at hbf
            simp only [Option.map_some'] at hbf
            have hcments : inv.commitments =
                (rowsFor inv.name rows).filterMap rowCommitment := by
              have := congrArg (fun o => (o.map (fun i => i.commitments)).getD [])
                hbf.symm
              simpa using this
            refine ⟨hcments, ?_⟩
            rw [hcments]
            apply length_filterMap_of_forall_isSome
            intro x hx
            exact hE x (List.mem_of_mem_filter hx)
  refine ⟨by simpa using hA, hnodup, ?_, hbuild, hcomm, ?_⟩
  · intro r hr
    rcases hD r hr with ⟨inv, hinv⟩
    exact ⟨inv, findByName_mem _ _ _ hinv, findByName_name _ _ _ hinv⟩
  · intro s hs
    have hstore : (upload_csv_data now freshIds rows store).2 =
        (invs.enum).map (fun p => investorToDoc (freshIds p.1) p.2) := by
      simp [upload_csv_data, h]
    rw [hstore] at hs
    simp only [get_investors_summary, List.mem_insertionSort] at hs
    rcases List.mem_map.mp hs with ⟨d, hd, rfl⟩
    rcases List.mem_map.mp hd with ⟨p, hp, rfl⟩
    have hmemp : p.2 ∈ invs := by
      have := List.mem_map_of_mem Prod.snd hp
      rwa [List.enum_map_snd] at this
    have hlen := (hcomm p.2 hmemp).2
    simpa [summaryOfDoc, investorToDoc] using hlen

/-- Witness for C5 at a concrete three-row file over two investor
names. -/
theorem claim_C5_witness :
    3 = [rowA, rowB, rowC].length ∧
    (invsW.map (fun i => i.name)).Nodup ∧
    (∀ r ∈ [rowA, rowB, rowC], ∃ inv ∈ invsW, inv.name = pyStrip r.investor_name) ∧
    (∀ inv ∈ invsW, buildFirst now0 inv.name [rowA, rowB, rowC] = some inv) ∧
    (∀ inv ∈ invsW,
      inv.commitments = (rowsFor inv.name [rowA, rowB, rowC]).filterMap rowCommitment ∧
      inv.commitments.length = (rowsFor inv.name [rowA, rowB, rowC]).length) ∧
    (∀ s ∈ get_investors_summary (upload_csv_data now0 ids0 [rowA, rowB, rowC] []).2 none,
      s.commitment_count = (rowsFor s.name [rowA, rowB, rowC]).length) :=
  claim_C5 now0 ids0 [rowA, rowB, rowC] [] invsW 3 (by decide)

end InvestorDashboard
